import Mathlib

/-!
Shallow embedding of the reactor core of the repository: the event loop
(`src/reactors/event_loop.rs`) and the dispatcher (`src/reactors/dispatcher.rs`).

Modelling conventions.

* Machine identifiers (`SocketId`, `DeviceId`, `EndpointId`, tokens, urls,
  messages, commands, payloads) are represented as `Nat`; `usize::MAX` is
  `2 ^ 64 - 1` and token arithmetic is carried out on plain naturals.
* The dispatcher state `Sys` holds the four event sources (request channel,
  signal bus, expired-timer queue) as FIFO lists, the session (socket ids and
  devices), the endpoint collection (pipes and acceptors as association lists
  keyed by `EndpointId`), the shared monotonic id sequence, and the event
  loop's `running` flag.
* Every externally visible effect of dispatching (a socket state-machine
  callback, a pipe/acceptor `ready`/`process` call, a device call, the
  `println!` in `process_io`) is recorded as an `Action` in a trace; the step
  functions return `Sys × List Action`.
* The socket state machines, pipes and acceptors are out of scope for the
  source; their behaviour is abstracted by an environment
  `env : Action → List Signal` giving the signals the invoked callback posts
  to the dispatcher's bus through its scoped context (the only effect a
  callback has on the dispatcher state in this model).
* The bus drain of `process_bus` is a genuine loop that can be extended by
  the handlers it runs, so it is modelled with fuel and returns `none` when
  the fuel is exhausted with the queue still non-empty.
-/

namespace Reactor

/-- mio readiness flags, kept abstract as a bit set. -/
structure Ready where
  bits : Nat
deriving DecidableEq

/-- The value of `usize::MAX` on the 64-bit targets the crate is built for. -/
def USIZE_MAX : Nat := 2 ^ 64 - 1

/-- `const CHANNEL_TOKEN: Token = Token(usize::MAX - 1)`. -/
def CHANNEL_TOKEN : Nat := USIZE_MAX - 1

/-- `const BUS_TOKEN: Token = Token(usize::MAX - 2)`. -/
def BUS_TOKEN : Nat := USIZE_MAX - 2

/-- `const TIMER_TOKEN: Token = Token(usize::MAX - 3)`. -/
def TIMER_TOKEN : Nat := USIZE_MAX - 3

/-- `pub struct Scheduled(usize)`. -/
structure Scheduled where
  val : Nat
deriving DecidableEq

/-- `impl From<usize> for Scheduled`. -/
def Scheduled.fromUsize (n : Nat) : Scheduled := ⟨n⟩

/-- `impl Into<usize> for Scheduled` (and the identical impl for `&Scheduled`). -/
def Scheduled.intoUsize (x : Scheduled) : Nat := x.val

/-- `pipe::Event`: the events a pipe or acceptor machine emits. -/
inductive Event where
  | opened
  | canSend
  | sent
  | canRecv
  | received (msg : Nat)
  | accepted (pipes : List Nat)
  | error (err : Nat)
  | closed
deriving DecidableEq

/-- `reactors::api::Signal`: the signals travelling on the event-loop bus. -/
inductive Signal where
  | pipeCmd (sid eid : Nat) (cmd : Nat)
  | acceptorCmd (sid eid : Nat) (cmd : Nat)
  | pipeEvt (sid eid : Nat) (evt : Event)
  | acceptorEvt (sid eid : Nat) (evt : Event)
  | socketEvt (sid : Nat) (evt : Event)
deriving DecidableEq

/-- `Schedulable`: the taxonomy of delayed tasks. -/
inductive Schedulable where
  | reconnect (eid : Nat) (spec : Nat)
  | rebind (eid : Nat) (spec : Nat)
  | sendTimeout
  | recvTimeout
  | reqResend
  | surveyCancel
deriving DecidableEq

/-- `reactors::api::Task`: the payload carried by a timer entry. -/
inductive Task where
  | socket (sid : Nat) (sch : Schedulable)
deriving DecidableEq

/-- `session::Request`. -/
inductive SessionRequest where
  | createSocket
  | createDevice (l r : Nat)
  | shutdown
deriving DecidableEq

/-- `socket::Request`. -/
inductive SocketRequest where
  | connect (url : Nat)
  | bind (url : Nat)
  | send (msg : Nat)
  | recv
  | close
deriving DecidableEq

/-- `endpoint::Request`. -/
inductive EndpointRequest where
  | close (remote : Bool)
deriving DecidableEq

/-- `device::Request`. -/
inductive DeviceRequest where
  | check
deriving DecidableEq

/-- `api::Request`: the four request kinds the dispatcher routes. -/
inductive Request where
  | session (r : SessionRequest)
  | socket (id : Nat) (r : SocketRequest)
  | endpoint (sid eid : Nat) (r : EndpointRequest)
  | device (id : Nat) (r : DeviceRequest)
deriving DecidableEq

/-- The externally visible effects of dispatching, recorded as a trace:
socket state-machine callbacks, pipe/acceptor `ready`/`process` invocations,
device calls, and the `println!` writing to stdout in `process_io`. -/
inductive Action where
  | onPipeOpened (sid eid : Nat)
  | onSendReady (sid eid : Nat)
  | onSendAck (sid eid : Nat)
  | onRecvReady (sid eid : Nat)
  | onRecvAck (sid eid : Nat) (msg : Nat)
  | onPipeError (sid eid : Nat) (err : Nat)
  | onPipeAccepted (sid aid pid : Nat)
  | onAcceptorError (sid aid : Nat) (err : Nat)
  | onDevicePlugged (sid : Nat)
  | connect (sid : Nat) (url : Nat)
  | bind (sid : Nat) (url : Nat)
  | send (sid : Nat) (msg : Nat)
  | recv (sid : Nat)
  | close (sid : Nat)
  | closePipe (sid eid : Nat)
  | closeAcceptor (sid eid : Nat)
  | reconnect (sid eid : Nat) (spec : Nat)
  | rebind (sid eid : Nat) (spec : Nat)
  | onSendTimeout (sid : Nat)
  | onRecvTimeout (sid : Nat)
  | onTimerTick (sid : Nat) (sch : Schedulable)
  | deviceCheck (did : Nat)
  | onSocketCanRecv (did sid : Nat)
  | pipeReady (eid : Nat) (events : Ready)
  | acceptorReady (eid : Nat) (events : Ready)
  | pipeProcess (eid : Nat) (cmd : Nat)
  | acceptorProcess (eid : Nat) (cmd : Nat)
  | printStdout (token : Nat) (events : Ready)
deriving DecidableEq

/-- The abstracted behaviour of the out-of-scope machines: the signals a
callback posts to the dispatcher's bus through its scoped context. -/
abbrev Env : Type := Action → List Signal

/-- The dispatcher state: the `Dispatcher` struct fields together with the
`running` flag of the `EventLoop` driving it. -/
structure Sys where
  channel : List Request
  bus : List Signal
  timer : List Task
  sockets : List Nat
  devices : List (Nat × Nat × Nat)
  pipes : List (Nat × Nat × Nat)
  acceptors : List (Nat × Nat)
  schedule : List Nat
  nextId : Nat
  running : Bool
deriving DecidableEq

/-- Modelled from the spec: association-list lookup standing for the
`HashMap` lookups `get_pipe_mut` / `get_acceptor_mut` / `get_device_mut` of
`EndpointCollection` and `Session`, whose sources are not part of src. -/
def lookupEp {α : Type} (eid : Nat) : List (Nat × α) → Option α
  | [] => none
  | (k, v) :: rest => if k = eid then some v else lookupEp eid rest

/-- Modelled from the spec: association-list removal standing for the
`HashMap` removals `remove_pipe` / `remove_acceptor` of `EndpointCollection`. -/
def removeEp {α : Type} (eid : Nat) : List (Nat × α) → List (Nat × α)
  | [] => []
  | (k, v) :: rest => if k = eid then removeEp eid rest else (k, v) :: removeEp eid rest

/-- A callback that owns the scoped context: it is recorded in the trace and
the signals it posts (per the environment) are appended to the bus FIFO. -/
def emitCtx (env : Env) (a : Action) (s : Sys) : Sys × List Action :=
  ({ s with bus := s.bus ++ env a }, [a])

/-- `Dispatcher::apply_on_socket`: look the socket up in the session and, if
present, run the callback inside a fresh `SocketEventLoopContext`. -/
def applyOnSocket (env : Env) (sid : Nat) (a : Action) (s : Sys) : Sys × List Action :=
  if sid ∈ s.sockets then emitCtx env a s else (s, [])

/-- `Dispatcher::apply_on_device`: the callback receives only the device, so
it cannot post to the bus. -/
def applyOnDevice (did : Nat) (a : Action) (s : Sys) : Sys × List Action :=
  match lookupEp did s.devices with
  | some _ => (s, [a])
  | none => (s, [])

/-- Modelled from the spec: `Session::find_device_mut`, the device (if any)
linking the given socket as its left or right end. -/
def findDeviceLink (sid : Nat) : List (Nat × Nat × Nat) → Option Nat
  | [] => none
  | d :: rest => if d.2.1 = sid ∨ d.2.2 = sid then some d.1 else findDeviceLink sid rest

/-- `Dispatcher::apply_on_device_link`. -/
def applyOnDeviceLink (sid : Nat) (s : Sys) : Sys × List Action :=
  match findDeviceLink sid s.devices with
  | some did => (s, [Action.onSocketCanRecv did sid])
  | none => (s, [])

/-- Modelled from the spec: `Session::add_socket` allocates a fresh
`SocketId` from the shared monotonic sequence and records the socket. -/
def addSocket (s : Sys) : Sys :=
  { s with sockets := s.sockets ++ [s.nextId], nextId := s.nextId + 1 }

/-- Modelled from the spec: `Session::add_device` records a device bound to
`(l, r)` under a fresh `DeviceId` from the shared sequence. -/
def addDevice (l r : Nat) (s : Sys) : Sys :=
  { s with devices := s.devices ++ [(s.nextId, l, r)], nextId := s.nextId + 1 }

/-- Modelled from the spec: `EndpointCollection::insert_pipe` registers the
pipe under a fresh monotonic `EndpointId` and returns that id. -/
def insertPipe (sid p : Nat) (s : Sys) : Nat × Sys :=
  (s.nextId, { s with pipes := s.pipes ++ [(s.nextId, sid, p)], nextId := s.nextId + 1 })

/-- `Dispatcher::process_pipe_cmd`. -/
def processPipeCmd (env : Env) (eid cmd : Nat) (s : Sys) : Sys × List Action :=
  match lookupEp eid s.pipes with
  | some _ => emitCtx env (Action.pipeProcess eid cmd) s
  | none => (s, [])

/-- `Dispatcher::process_acceptor_cmd`. -/
def processAcceptorCmd (env : Env) (eid cmd : Nat) (s : Sys) : Sys × List Action :=
  match lookupEp eid s.acceptors with
  | some _ => emitCtx env (Action.acceptorProcess eid cmd) s
  | none => (s, [])

/-- `Dispatcher::process_pipe_evt`. -/
def processPipeEvt (env : Env) (sid eid : Nat) (evt : Event) (s : Sys) : Sys × List Action :=
  match evt with
  | Event.opened => applyOnSocket env sid (Action.onPipeOpened sid eid) s
  | Event.canSend => applyOnSocket env sid (Action.onSendReady sid eid) s
  | Event.sent => applyOnSocket env sid (Action.onSendAck sid eid) s
  | Event.canRecv => applyOnSocket env sid (Action.onRecvReady sid eid) s
  | Event.accepted _ => (s, [])
  | Event.received msg => applyOnSocket env sid (Action.onRecvAck sid eid msg) s
  | Event.error err => applyOnSocket env sid (Action.onPipeError sid eid err) s
  | Event.closed => ({ s with pipes := removeEp eid s.pipes }, [])

/-- The `for pipe in pipes` loop of `Dispatcher::process_acceptor_evt`:
insert each accepted pipe, then fire `on_pipe_accepted` with the fresh id. -/
def acceptLoop (env : Env) (sid aid : Nat) : List Nat → Sys → Sys × List Action
  | [], s => (s, [])
  | p :: ps, s =>
    let r := insertPipe sid p s
    let q := applyOnSocket env sid (Action.onPipeAccepted sid aid r.1) r.2
    let w := acceptLoop env sid aid ps q.1
    (w.1, q.2 ++ w.2)

/-- `Dispatcher::process_acceptor_evt`. -/
def processAcceptorEvt (env : Env) (sid aid : Nat) (evt : Event) (s : Sys) :
    Sys × List Action :=
  match evt with
  | Event.error e => applyOnSocket env sid (Action.onAcceptorError sid aid e) s
  | Event.accepted pipes => acceptLoop env sid aid pipes s
  | _ => (s, [])

/-- `Dispatcher::process_socket_evt`. -/
def processSocketEvt (sid : Nat) (evt : Event) (s : Sys) : Sys × List Action :=
  match evt with
  | Event.opened => (s, [])
  | Event.sent => (s, [])
  | Event.received _ => (s, [])
  | Event.accepted _ => (s, [])
  | Event.error _ => (s, [])
  | Event.canRecv => applyOnDeviceLink sid s
  | Event.canSend => (s, [])
  | Event.closed => ({ s with sockets := s.sockets.erase sid }, [])

/-- `Dispatcher::process_signal`: note that the `SocketId` carried by
`PipeCmd` and `AcceptorCmd` is matched with `_` and dropped. -/
def processSignal (env : Env) (sig : Signal) (s : Sys) : Sys × List Action :=
  match sig with
  | Signal.pipeCmd _ eid cmd => processPipeCmd env eid cmd s
  | Signal.acceptorCmd _ eid cmd => processAcceptorCmd env eid cmd s
  | Signal.pipeEvt sid eid evt => processPipeEvt env sid eid evt s
  | Signal.acceptorEvt sid eid evt => processAcceptorEvt env sid eid evt s
  | Signal.socketEvt sid evt => processSocketEvt sid evt s

/-- `Dispatcher::process_socket_task`. -/
def processSocketTask (env : Env) (sid : Nat) (task : Schedulable) (s : Sys) :
    Sys × List Action :=
  match task with
  | Schedulable.reconnect eid spec => applyOnSocket env sid (Action.reconnect sid eid spec) s
  | Schedulable.rebind eid spec => applyOnSocket env sid (Action.rebind sid eid spec) s
  | Schedulable.sendTimeout => applyOnSocket env sid (Action.onSendTimeout sid) s
  | Schedulable.recvTimeout => applyOnSocket env sid (Action.onRecvTimeout sid) s
  | other => applyOnSocket env sid (Action.onTimerTick sid other) s

/-- `Dispatcher::process_tick`. -/
def processTick (env : Env) (task : Task) (s : Sys) : Sys × List Action :=
  match task with
  | Task.socket sid sch => processSocketTask env sid sch s

/-- `Dispatcher::process_session_request`. -/
def processSessionRequest (env : Env) (req : SessionRequest) (s : Sys) :
    Sys × List Action :=
  match req with
  | SessionRequest.createSocket => (addSocket s, [])
  | SessionRequest.createDevice l r =>
    let p := applyOnSocket env l (Action.onDevicePlugged l) s
    let q := applyOnSocket env r (Action.onDevicePlugged r) p.1
    (addDevice l r q.1, p.2 ++ q.2)
  | SessionRequest.shutdown => ({ s with running := false }, [])

/-- `Dispatcher::process_socket_request`. -/
def processSocketRequest (env : Env) (id : Nat) (req : SocketRequest) (s : Sys) :
    Sys × List Action :=
  match req with
  | SocketRequest.connect url => applyOnSocket env id (Action.connect id url) s
  | SocketRequest.bind url => applyOnSocket env id (Action.bind id url) s
  | SocketRequest.send msg => applyOnSocket env id (Action.send id msg) s
  | SocketRequest.recv => applyOnSocket env id (Action.recv id) s
  | SocketRequest.close => applyOnSocket env id (Action.close id) s

/-- `Dispatcher::process_endpoint_request`. -/
def processEndpointRequest (env : Env) (sid eid : Nat) (req : EndpointRequest) (s : Sys) :
    Sys × List Action :=
  match req with
  | EndpointRequest.close remote =>
    applyOnSocket env sid
      (if remote then Action.closePipe sid eid else Action.closeAcceptor sid eid) s

/-- `Dispatcher::process_device_request`. -/
def processDeviceRequest (id : Nat) (req : DeviceRequest) (s : Sys) : Sys × List Action :=
  match req with
  | DeviceRequest.check => applyOnDevice id (Action.deviceCheck id) s

/-- `Dispatcher::process_request`. -/
def processRequest (env : Env) (req : Request) (s : Sys) : Sys × List Action :=
  match req with
  | Request.session r => processSessionRequest env r s
  | Request.socket id r => processSocketRequest env id r s
  | Request.endpoint sid eid r => processEndpointRequest env sid eid r s
  | Request.device id r => processDeviceRequest id r s

/-- `Dispatcher::process_io`: the `println!` first, then the pipe lookup,
then the acceptor lookup; nothing further when neither owns the token. -/
def processIo (env : Env) (s : Sys) (token : Nat) (events : Ready) : Sys × List Action :=
  let pr := Action.printStdout token events
  match lookupEp token s.pipes with
  | some _ =>
    let q := emitCtx env (Action.pipeReady token events) s
    (q.1, pr :: q.2)
  | none =>
    match lookupEp token s.acceptors with
    | some _ =>
      let q := emitCtx env (Action.acceptorReady token events) s
      (q.1, pr :: q.2)
    | none => (s, [pr])

/-- The body of `Dispatcher::process_channel`: pop the queued requests in
FIFO order (requests never enqueue further requests from the reactor). -/
def drainChannel (env : Env) : List Request → Sys → Sys × List Action
  | [], s => (s, [])
  | req :: rest, s =>
    let p := processRequest env req s
    let q := drainChannel env rest p.1
    (q.1, p.2 ++ q.2)

/-- `Dispatcher::process_channel`. -/
def processChannel (env : Env) (s : Sys) : Sys × List Action :=
  drainChannel env s.channel { s with channel := [] }

/-- `Dispatcher::process_bus`: `while let Some(signal) = self.bus.recv()`.
Handlers may append to the queue while it drains, so the loop is fuelled;
`none` is the still-running loop. Besides the state and trace it returns the
signals dequeued, in the order the loop observed them. -/
def processBus (env : Env) : Nat → Sys → Option (Sys × List Signal × List Action)
  | fuel, s =>
    match s.bus with
    | [] => some (s, [], [])
    | sig :: rest =>
      match fuel with
      | 0 => none
      | Nat.succ f =>
        let p := processSignal env sig { s with bus := rest }
        match processBus env f p.1 with
        | none => none
        | some (s2, sigs, tr2) => some (s2, sig :: sigs, p.2 ++ tr2)

/-- The body of `Dispatcher::process_timer`: pop the expired entries in FIFO
order (handlers may schedule new timers but cannot add expired entries). -/
def drainTimer (env : Env) : List Task → Sys → Sys × List Action
  | [], s => (s, [])
  | t :: rest, s =>
    let p := processTick env t s
    let q := drainTimer env rest p.1
    (q.1, p.2 ++ q.2)

/-- `Dispatcher::process_timer`. -/
def processTimer (env : Env) (s : Sys) : Sys × List Action :=
  drainTimer env s.timer { s with timer := [] }

/-- `impl EventHandler for Dispatcher`, `fn handle`: the token demultiplexer. -/
def handle (env : Env) (fuel : Nat) (s : Sys) (token : Nat) (events : Ready) :
    Option (Sys × List Action) :=
  if token = CHANNEL_TOKEN then some (processChannel env s)
  else if token = BUS_TOKEN then (processBus env fuel s).map (fun q => (q.1, q.2.2))
  else if token = TIMER_TOKEN then some (processTimer env s)
  else some (processIo env s token events)

/-- `EventLoop::shutdown`. -/
def elShutdown (s : Sys) : Sys :=
  { s with running := false }

/-- The error value returned by the OS poll, with the `Interrupted` kind
distinguished as in `err.kind() == io::ErrorKind::Interrupted`. -/
structure PollErr where
  isInterrupted : Bool
  code : Nat
deriving DecidableEq

/-- One outcome of `Poll::poll`: the filled event buffer, or an error. -/
inductive PollOutcome where
  | ok (evts : List (Nat × Ready))
  | err (e : PollErr)
deriving DecidableEq

/-- `EventLoop::process_events`: invoke `handler.handle` once per returned
event, in buffer order. -/
def processEvents (env : Env) (fuel : Nat) : List (Nat × Ready) → Sys → Option (Sys × List Action)
  | [], s => some (s, [])
  | ev :: rest, s =>
    match handle env fuel s ev.1 ev.2 with
    | none => none
    | some p =>
      match processEvents env fuel rest p.1 with
      | none => none
      | some q => some (q.1, p.2 ++ q.2)

/-- `EventLoop::run_once`: absorb an `Interrupted` poll error as zero events,
propagate any other error, otherwise handle each returned event. -/
def runOnce (env : Env) (o : PollOutcome) (fuel : Nat) (s : Sys) :
    Option (Except PollErr (Sys × List Action)) :=
  match o with
  | PollOutcome.err e =>
    if e.isInterrupted then (processEvents env fuel [] s).map Except.ok
    else some (Except.error e)
  | PollOutcome.ok evts => (processEvents env fuel evts s).map Except.ok

/-- The result of the `while self.running` loop of `EventLoop::run`:
a clean return, a propagated poll error, or a still-running loop whose
scripted poll outcomes (or fuel) ran out. -/
inductive RunResult where
  | finished (s : Sys) (tr : List Action)
  | failed (e : PollErr)
  | blocked
deriving DecidableEq

/-- The `while self.running { run_once }` loop of `EventLoop::run`, driven by
a script of poll outcomes. -/
def elRun (env : Env) (fuel : Nat) : List PollOutcome → Sys → RunResult
  | script, s =>
    if s.running then
      match script with
      | [] => RunResult.blocked
      | o :: rest =>
        match runOnce env o fuel s with
        | none => RunResult.blocked
        | some (Except.error e) => RunResult.failed e
        | some (Except.ok (s1, tr1)) =>
          match elRun env fuel rest s1 with
          | RunResult.finished s2 tr2 => RunResult.finished s2 (tr1 ++ tr2)
          | r => r
    else RunResult.finished s []

/-- `EventLoop::run`: set the running flag, then loop. -/
def elRunFromStart (env : Env) (fuel : Nat) (script : List PollOutcome) (s : Sys) : RunResult :=
  elRun env fuel script { s with running := true }

/-- A silent environment: callbacks that post no signals, used for concrete runs. -/
def env0 : Env := fun _ => []

/-- A concrete readiness value. -/
def r0 : Ready := ⟨0⟩

/-- The freshly constructed dispatcher state: everything empty, loop not running. -/
def sEmpty : Sys := ⟨[], [], [], [], [], [], [], [], 0, false⟩

/-- A state owning one registered pipe under `EndpointId` 4. -/
def s1w : Sys := ⟨[], [], [], [], [], [(4, 1, 9)], [], [], 5, false⟩

/-- A state with one live socket, id 1. -/
def s2w : Sys := ⟨[], [], [], [1], [], [], [], [], 2, false⟩

/-- A state with one pending request, one queued signal and one expired timer entry. -/
def s3w : Sys := ⟨[Request.session SessionRequest.createSocket], [Signal.pipeCmd 0 1 2],
  [Task.socket 0 Schedulable.sendTimeout], [], [], [], [], [], 0, false⟩

/-- The state `s3w` after its request channel is drained. -/
def s3c : Sys := ⟨[], [Signal.pipeCmd 0 1 2], [Task.socket 0 Schedulable.sendTimeout],
  [0], [], [], [], [], 1, false⟩

/-- The state `s3w` after its signal bus is drained. -/
def s3b : Sys := ⟨[Request.session SessionRequest.createSocket], [],
  [Task.socket 0 Schedulable.sendTimeout], [], [], [], [], [], 0, false⟩

/-- The state `s3w` after its expired timer entries are drained. -/
def s3t : Sys := ⟨[Request.session SessionRequest.createSocket], [Signal.pipeCmd 0 1 2],
  [], [], [], [], [], [], 0, false⟩

/-- An interrupted poll error. -/
def peI : PollErr := ⟨true, 0⟩

/-- A non-interrupted poll error. -/
def peO : PollErr := ⟨false, 7⟩

/-- A state whose request channel holds a single `Session::Shutdown`. -/
def s6 : Sys := ⟨[Request.session SessionRequest.shutdown], [], [], [], [], [], [], [], 0, false⟩

/-- A state with socket 1 live, one pipe already registered, next fresh id 3. -/
def s7 : Sys := ⟨[], [], [], [1], [], [(0, 1, 5)], [], [], 3, false⟩

/-! Helper lemmas: which state components each processing step can touch. -/

@[simp]
theorem aos_running (env : Env) (sid : Nat) (a : Action) (s : Sys) :
    (applyOnSocket env sid a s).1.running = s.running := by
  unfold applyOnSocket emitCtx; split <;> rfl

@[simp]
theorem aos_channel (env : Env) (sid : Nat) (a : Action) (s : Sys) :
    (applyOnSocket env sid a s).1.channel = s.channel := by
  unfold applyOnSocket emitCtx; split <;> rfl

@[simp]
theorem aos_timer (env : Env) (sid : Nat) (a : Action) (s : Sys) :
    (applyOnSocket env sid a s).1.timer = s.timer := by
  unfold applyOnSocket emitCtx; split <;> rfl

@[simp]
theorem aos_sockets (env : Env) (sid : Nat) (a : Action) (s : Sys) :
    (applyOnSocket env sid a s).1.sockets = s.sockets := by
  unfold applyOnSocket emitCtx; split <;> rfl

@[simp]
theorem aos_pipes (env : Env) (sid : Nat) (a : Action) (s : Sys) :
    (applyOnSocket env sid a s).1.pipes = s.pipes := by
  unfold applyOnSocket emitCtx; split <;> rfl

@[simp]
theorem aos_acceptors (env : Env) (sid : Nat) (a : Action) (s : Sys) :
    (applyOnSocket env sid a s).1.acceptors = s.acceptors := by
  unfold applyOnSocket emitCtx; split <;> rfl

@[simp]
theorem aos_nextId (env : Env) (sid : Nat) (a : Action) (s : Sys) :
    (applyOnSocket env sid a s).1.nextId = s.nextId := by
  unfold applyOnSocket emitCtx; split <;> rfl

@[simp]
theorem aos_devices (env : Env) (sid : Nat) (a : Action) (s : Sys) :
    (applyOnSocket env sid a s).1.devices = s.devices := by
  unfold applyOnSocket emitCtx; split <;> rfl

theorem aos_bus (env : Env) (sid : Nat) (a : Action) (s : Sys) :
    ∃ post, (applyOnSocket env sid a s).1.bus = s.bus ++ post := by
  unfold applyOnSocket emitCtx; split
  · exact ⟨env a, rfl⟩
  · exact ⟨[], (List.append_nil _).symm⟩

@[simp]
theorem aod_fst (did : Nat) (a : Action) (s : Sys) : (applyOnDevice did a s).1 = s := by
  unfold applyOnDevice; cases lookupEp did s.devices <;> rfl

@[simp]
theorem adl_fst (sid : Nat) (s : Sys) : (applyOnDeviceLink sid s).1 = s := by
  unfold applyOnDeviceLink; cases findDeviceLink sid s.devices <;> rfl

@[simp]
theorem ppc_running (env : Env) (eid cmd : Nat) (s : Sys) :
    (processPipeCmd env eid cmd s).1.running = s.running := by
  unfold processPipeCmd emitCtx; cases lookupEp eid s.pipes <;> rfl

@[simp]
theorem ppc_channel (env : Env) (eid cmd : Nat) (s : Sys) :
    (processPipeCmd env eid cmd s).1.channel = s.channel := by
  unfold processPipeCmd emitCtx; cases lookupEp eid s.pipes <;> rfl

theorem ppc_bus (env : Env) (eid cmd : Nat) (s : Sys) :
    ∃ post, (processPipeCmd env eid cmd s).1.bus = s.bus ++ post := by
  unfold processPipeCmd emitCtx; cases lookupEp eid s.pipes
  · exact ⟨[], (List.append_nil _).symm⟩
  · exact ⟨_, rfl⟩

@[simp]
theorem pac_running (env : Env) (eid cmd : Nat) (s : Sys) :
    (processAcceptorCmd env eid cmd s).1.running = s.running := by
  unfold processAcceptorCmd emitCtx; cases lookupEp eid s.acceptors <;> rfl

@[simp]
theorem pac_channel (env : Env) (eid cmd : Nat) (s : Sys) :
    (processAcceptorCmd env eid cmd s).1.channel = s.channel := by
  unfold processAcceptorCmd emitCtx; cases lookupEp eid s.acceptors <;> rfl

theorem pac_bus (env : Env) (eid cmd : Nat) (s : Sys) :
    ∃ post, (processAcceptorCmd env eid cmd s).1.bus = s.bus ++ post := by
  unfold processAcceptorCmd emitCtx; cases lookupEp eid s.acceptors
  · exact ⟨[], (List.append_nil _).symm⟩
  · exact ⟨_, rfl⟩

@[simp]
theorem ppe_running (env : Env) (sid eid : Nat) (evt : Event) (s : Sys) :
    (processPipeEvt env sid eid evt s).1.running = s.running := by
  cases evt <;> simp [processPipeEvt]

@[simp]
theorem ppe_channel (env : Env) (sid eid : Nat) (evt : Event) (s : Sys) :
    (processPipeEvt env sid eid evt s).1.channel = s.channel := by
  cases evt <;> simp [processPipeEvt]

theorem ppe_bus (env : Env) (sid eid : Nat) (evt : Event) (s : Sys) :
    ∃ post, (processPipeEvt env sid eid evt s).1.bus = s.bus ++ post := by
  cases evt <;> first
    | exact ⟨[], (List.append_nil _).symm⟩
    | exact aos_bus ..

@[simp]
theorem acceptLoop_running (env : Env) (sid aid : Nat) (ps : List Nat) (s : Sys) :
    (acceptLoop env sid aid ps s).1.running = s.running := by
  induction ps generalizing s with
  | nil => rfl
  | cons p ps ih => simp [acceptLoop, ih, insertPipe]

@[simp]
theorem acceptLoop_channel (env : Env) (sid aid : Nat) (ps : List Nat) (s : Sys) :
    (acceptLoop env sid aid ps s).1.channel = s.channel := by
  induction ps generalizing s with
  | nil => rfl
  | cons p ps ih => simp [acceptLoop, ih, insertPipe]

@[simp]
theorem acceptLoop_sockets (env : Env) (sid aid : Nat) (ps : List Nat) (s : Sys) :
    (acceptLoop env sid aid ps s).1.sockets = s.sockets := by
  induction ps generalizing s with
  | nil => rfl
  | cons p ps ih => simp [acceptLoop, ih, insertPipe]

theorem acceptLoop_bus (env : Env) (sid aid : Nat) (ps : List Nat) (s : Sys) :
    ∃ post, (acceptLoop env sid aid ps s).1.bus = s.bus ++ post := by
  induction ps generalizing s with
  | nil => exact ⟨[], (List.append_nil _).symm⟩
  | cons p ps ih =>
    obtain ⟨p2, hp2⟩ := ih (applyOnSocket env sid
      (Action.onPipeAccepted sid aid (insertPipe sid p s).1) (insertPipe sid p s).2).1
    obtain ⟨p1, hp1⟩ := aos_bus env sid
      (Action.onPipeAccepted sid aid (insertPipe sid p s).1) (insertPipe sid p s).2
    refine ⟨p1 ++ p2, ?_⟩
    show (acceptLoop env sid aid ps (applyOnSocket env sid
      (Action.onPipeAccepted sid aid (insertPipe sid p s).1)
      (insertPipe sid p s).2).1).1.bus = s.bus ++ (p1 ++ p2)
    rw [hp2, hp1]
    simp [insertPipe, List.append_assoc]

@[simp]
theorem pae_running (env : Env) (sid aid : Nat) (evt : Event) (s : Sys) :
    (processAcceptorEvt env sid aid evt s).1.running = s.running := by
  cases evt <;> simp [processAcceptorEvt]

@[simp]
theorem pae_channel (env : Env) (sid aid : Nat) (evt : Event) (s : Sys) :
    (processAcceptorEvt env sid aid evt s).1.channel = s.channel := by
  cases evt <;> simp [processAcceptorEvt]

theorem pae_bus (env : Env) (sid aid : Nat) (evt : Event) (s : Sys) :
    ∃ post, (processAcceptorEvt env sid aid evt s).1.bus = s.bus ++ post := by
  cases evt <;> first
    | exact ⟨[], (List.append_nil _).symm⟩
    | exact aos_bus ..
    | exact acceptLoop_bus ..

@[simp]
theorem pse_running (sid : Nat) (evt : Event) (s : Sys) :
    (processSocketEvt sid evt s).1.running = s.running := by
  cases evt <;> simp [processSocketEvt]

@[simp]
theorem pse_channel (sid : Nat) (evt : Event) (s : Sys) :
    (processSocketEvt sid evt s).1.channel = s.channel := by
  cases evt <;> simp [processSocketEvt]

theorem pse_bus (sid : Nat) (evt : Event) (s : Sys) :
    ∃ post, (processSocketEvt sid evt s).1.bus = s.bus ++ post := by
  cases evt <;> first
    | exact ⟨[], (List.append_nil _).symm⟩
    | (refine ⟨[], ?_⟩; simp [processSocketEvt])

@[simp]
theorem processSignal_running (env : Env) (sig : Signal) (s : Sys) :
    (processSignal env sig s).1.running = s.running := by
  cases sig <;> simp [processSignal]

@[simp]
theorem processSignal_channel (env : Env) (sig : Signal) (s : Sys) :
    (processSignal env sig s).1.channel = s.channel := by
  cases sig <;> simp [processSignal]

theorem processSignal_bus (env : Env) (sig : Signal) (s : Sys) :
    ∃ post, (processSignal env sig s).1.bus = s.bus ++ post := by
  cases sig <;> first
    | exact ppc_bus ..
    | exact pac_bus ..
    | exact ppe_bus ..
    | exact pae_bus ..
    | exact pse_bus ..

@[simp]
theorem pst_running (env : Env) (sid : Nat) (sch : Schedulable) (s : Sys) :
    (processSocketTask env sid sch s).1.running = s.running := by
  cases sch <;> simp [processSocketTask]

@[simp]
theorem pst_channel (env : Env) (sid : Nat) (sch : Schedulable) (s : Sys) :
    (processSocketTask env sid sch s).1.channel = s.channel := by
  cases sch <;> simp [processSocketTask]

@[simp]
theorem pst_timer (env : Env) (sid : Nat) (sch : Schedulable) (s : Sys) :
    (processSocketTask env sid sch s).1.timer = s.timer := by
  cases sch <;> simp [processSocketTask]

@[simp]
theorem processTick_running (env : Env) (t : Task) (s : Sys) :
    (processTick env t s).1.running = s.running := by
  cases t; simp [processTick]

@[simp]
theorem processTick_channel (env : Env) (t : Task) (s : Sys) :
    (processTick env t s).1.channel = s.channel := by
  cases t; simp [processTick]

@[simp]
theorem processTick_timer (env : Env) (t : Task) (s : Sys) :
    (processTick env t s).1.timer = s.timer := by
  cases t; simp [processTick]

@[simp]
theorem processIo_running (env : Env) (s : Sys) (token : Nat) (events : Ready) :
    (processIo env s token events).1.running = s.running := by
  unfold processIo emitCtx
  cases lookupEp token s.pipes <;> [skip; rfl]
  cases lookupEp token s.acceptors <;> rfl

@[simp]
theorem processIo_channel (env : Env) (s : Sys) (token : Nat) (events : Ready) :
    (processIo env s token events).1.channel = s.channel := by
  unfold processIo emitCtx
  cases lookupEp token s.pipes <;> [skip; rfl]
  cases lookupEp token s.acceptors <;> rfl

@[simp]
theorem processSessionRequest_channel (env : Env) (req : SessionRequest) (s : Sys) :
    (processSessionRequest env req s).1.channel = s.channel := by
  cases req <;> simp [processSessionRequest, addSocket, addDevice]

theorem processSessionRequest_running (env : Env) (req : SessionRequest) (s : Sys)
    (h : s.running = false) : (processSessionRequest env req s).1.running = false := by
  cases req <;> simp [processSessionRequest, addSocket, addDevice, h]

@[simp]
theorem processRequest_channel (env : Env) (req : Request) (s : Sys) :
    (processRequest env req s).1.channel = s.channel := by
  cases req with
  | session r => simp [processRequest]
  | socket id r => cases r <;> simp [processRequest, processSocketRequest]
  | endpoint sid eid r => cases r <;> simp [processRequest, processEndpointRequest]
  | device id r => cases r <;> simp [processRequest, processDeviceRequest]

theorem processRequest_running (env : Env) (req : Request) (s : Sys)
    (h : s.running = false) : (processRequest env req s).1.running = false := by
  cases req with
  | session r => exact processSessionRequest_running env r s h
  | socket id r => cases r <;> simp [processRequest, processSocketRequest, h]
  | endpoint sid eid r => cases r <;> simp [processRequest, processEndpointRequest, h]
  | device id r => cases r <;> simp [processRequest, processDeviceRequest, h]

theorem drainChannel_channel (env : Env) (reqs : List Request) (s : Sys) :
    (drainChannel env reqs s).1.channel = s.channel := by
  induction reqs generalizing s with
  | nil => rfl
  | cons req rest ih =>
    show (drainChannel env rest (processRequest env req s).1).1.channel = s.channel
    rw [ih, processRequest_channel]

theorem drainChannel_running (env : Env) (reqs : List Request) (s : Sys)
    (h : s.running = false) : (drainChannel env reqs s).1.running = false := by
  induction reqs generalizing s with
  | nil => exact h
  | cons req rest ih =>
    show (drainChannel env rest (processRequest env req s).1).1.running = false
    exact ih _ (processRequest_running env req s h)

theorem drainChannel_shutdown (env : Env) (reqs : List Request) (s : Sys)
    (h : Request.session SessionRequest.shutdown ∈ reqs) :
    (drainChannel env reqs s).1.running = false := by
  induction reqs generalizing s with
  | nil => cases h
  | cons req rest ih =>
    rcases List.mem_cons.mp h with h1 | h2
    · subst h1
      show (drainChannel env rest
        (processRequest env (Request.session SessionRequest.shutdown) s).1).1.running = false
      exact drainChannel_running env rest _ rfl
    · exact ih _ h2

theorem processChannel_channel (env : Env) (s : Sys) :
    (processChannel env s).1.channel = [] := by
  unfold processChannel; rw [drainChannel_channel]

theorem processChannel_shutdown (env : Env) (s : Sys)
    (h : Request.session SessionRequest.shutdown ∈ s.channel) :
    (processChannel env s).1.running = false :=
  drainChannel_shutdown env s.channel _ h

theorem processChannel_running (env : Env) (s : Sys) (h : s.running = false) :
    (processChannel env s).1.running = false :=
  drainChannel_running env s.channel _ h

theorem drainTimer_timer (env : Env) (tasks : List Task) (s : Sys) :
    (drainTimer env tasks s).1.timer = s.timer := by
  induction tasks generalizing s with
  | nil => rfl
  | cons t rest ih =>
    show (drainTimer env rest (processTick env t s).1).1.timer = s.timer
    rw [ih, processTick_timer]

theorem drainTimer_running (env : Env) (tasks : List Task) (s : Sys) :
    (drainTimer env tasks s).1.running = s.running := by
  induction tasks generalizing s with
  | nil => rfl
  | cons t rest ih =>
    show (drainTimer env rest (processTick env t s).1).1.running = s.running
    rw [ih, processTick_running]

theorem drainTimer_channel (env : Env) (tasks : List Task) (s : Sys) :
    (drainTimer env tasks s).1.channel = s.channel := by
  induction tasks generalizing s with
  | nil => rfl
  | cons t rest ih =>
    show (drainTimer env rest (processTick env t s).1).1.channel = s.channel
    rw [ih, processTick_channel]

theorem processTimer_timer (env : Env) (s : Sys) : (processTimer env s).1.timer = [] := by
  unfold processTimer; rw [drainTimer_timer]

theorem processBus_eq (env : Env) (fuel : Nat) (s : Sys) :
    processBus env fuel s =
      match s.bus with
      | [] => some (s, [], [])
      | sig :: rest =>
        match fuel with
        | 0 => none
        | Nat.succ f =>
          let p := processSignal env sig { s with bus := rest }
          match processBus env f p.1 with
          | none => none
          | some (s2, sigs, tr2) => some (s2, sig :: sigs, p.2 ++ tr2) := by
  rw [processBus.eq_def]

theorem processBus_bus (env : Env) (fuel : Nat) (s s2 : Sys) (sigs : List Signal)
    (tr : List Action) (h : processBus env fuel s = some (s2, sigs, tr)) : s2.bus = [] := by
  induction fuel generalizing s s2 sigs tr with
  | zero =>
    cases hb : s.bus with
    | nil =>
      rw [processBus_eq, hb] at h
      cases h
      exact hb
    | cons sig rest => rw [processBus_eq, hb] at h; cases h
  | succ f ih =>
    cases hb : s.bus with
    | nil =>
      rw [processBus_eq, hb] at h
      cases h
      exact hb
    | cons sig rest =>
      rw [processBus_eq, hb] at h
      rcases hc : processBus env f (processSignal env sig { s with bus := rest }).1 with _ | ⟨s3, sigs3, tr3⟩
      · simp only [hc] at h
        exact Option.noConfusion h
      · simp only [hc] at h
        cases h
        exact ih _ _ _ _ hc

theorem processBus_running (env : Env) (fuel : Nat) (s s2 : Sys) (sigs : List Signal)
    (tr : List Action) (h : processBus env fuel s = some (s2, sigs, tr)) :
    s2.running = s.running := by
  induction fuel generalizing s s2 sigs tr with
  | zero =>
    cases hb : s.bus with
    | nil => rw [processBus_eq, hb] at h; cases h; rfl
    | cons sig rest => rw [processBus_eq, hb] at h; cases h
  | succ f ih =>
    cases hb : s.bus with
    | nil => rw [processBus_eq, hb] at h; cases h; rfl
    | cons sig rest =>
      rw [processBus_eq, hb] at h
      rcases hc : processBus env f (processSignal env sig { s with bus := rest }).1 with _ | ⟨s3, sigs3, tr3⟩
      · simp only [hc] at h
        exact Option.noConfusion h
      · simp only [hc] at h
        cases h
        rw [ih _ _ _ _ hc, processSignal_running]

theorem processBus_channel (env : Env) (fuel : Nat) (s s2 : Sys) (sigs : List Signal)
    (tr : List Action) (h : processBus env fuel s = some (s2, sigs, tr)) :
    s2.channel = s.channel := by
  induction fuel generalizing s s2 sigs tr with
  | zero =>
    cases hb : s.bus with
    | nil => rw [processBus_eq, hb] at h; cases h; rfl
    | cons sig rest => rw [processBus_eq, hb] at h; cases h
  | succ f ih =>
    cases hb : s.bus with
    | nil => rw [processBus_eq, hb] at h; cases h; rfl
    | cons sig rest =>
      rw [processBus_eq, hb] at h
      rcases hc : processBus env f (processSignal env sig { s with bus := rest }).1 with _ | ⟨s3, sigs3, tr3⟩
      · simp only [hc] at h
        exact Option.noConfusion h
      · simp only [hc] at h
        cases h
        rw [ih _ _ _ _ hc, processSignal_channel]

theorem processBus_sigs (env : Env) (fuel : Nat) (s s2 : Sys) (sigs : List Signal)
    (tr : List Action) (h : processBus env fuel s = some (s2, sigs, tr)) :
    ∃ extra, sigs = s.bus ++ extra := by
  induction fuel generalizing s s2 sigs tr with
  | zero =>
    cases hb : s.bus with
    | nil => rw [processBus_eq, hb] at h; cases h; exact ⟨[], by simp [hb]⟩
    | cons sig rest => rw [processBus_eq, hb] at h; cases h
  | succ f ih =>
    cases hb : s.bus with
    | nil => rw [processBus_eq, hb] at h; cases h; exact ⟨[], by simp [hb]⟩
    | cons sig rest =>
      rw [processBus_eq, hb] at h
      rcases hc : processBus env f (processSignal env sig { s with bus := rest }).1 with _ | ⟨s3, sigs3, tr3⟩
      · simp only [hc] at h
        exact Option.noConfusion h
      · simp only [hc] at h
        cases h
        obtain ⟨e1, he1⟩ := ih _ _ _ _ hc
        obtain ⟨post, hpost⟩ := processSignal_bus env sig { s with bus := rest }
        refine ⟨post ++ e1, ?_⟩
        simp [he1, hpost]

theorem bus_ne_channel : BUS_TOKEN ≠ CHANNEL_TOKEN := by decide

theorem timer_ne_channel : TIMER_TOKEN ≠ CHANNEL_TOKEN := by decide

theorem timer_ne_bus : TIMER_TOKEN ≠ BUS_TOKEN := by decide

theorem handle_channel_eq (env : Env) (fuel : Nat) (s : Sys) (ev : Ready) :
    handle env fuel s CHANNEL_TOKEN ev = some (processChannel env s) := by
  simp [handle]

theorem handle_bus_eq (env : Env) (fuel : Nat) (s : Sys) (ev : Ready) :
    handle env fuel s BUS_TOKEN ev = (processBus env fuel s).map (fun q => (q.1, q.2.2)) := by
  simp [handle, bus_ne_channel]

theorem handle_timer_eq (env : Env) (fuel : Nat) (s : Sys) (ev : Ready) :
    handle env fuel s TIMER_TOKEN ev = some (processTimer env s) := by
  simp [handle, timer_ne_channel, timer_ne_bus]

theorem handle_io_eq (env : Env) (fuel : Nat) (s : Sys) (t : Nat) (ev : Ready)
    (h1 : t ≠ CHANNEL_TOKEN) (h2 : t ≠ BUS_TOKEN) (h3 : t ≠ TIMER_TOKEN) :
    handle env fuel s t ev = some (processIo env s t ev) := by
  simp [handle, h1, h2, h3]

theorem handle_running_false (env : Env) (fuel : Nat) (s : Sys) (t : Nat) (ev : Ready)
    (s2 : Sys) (tr : List Action) (h : handle env fuel s t ev = some (s2, tr))
    (hr : s.running = false) : s2.running = false := by
  by_cases h1 : t = CHANNEL_TOKEN
  · subst h1
    rw [handle_channel_eq] at h
    injection h with h
    have := congrArg Prod.fst h
    simp only at this
    rw [← this]
    exact processChannel_running env s hr
  by_cases h2 : t = BUS_TOKEN
  · subst h2
    rw [handle_bus_eq] at h
    obtain ⟨⟨s3, sigs3, tr3⟩, hm, hg⟩ := Option.map_eq_some'.mp h
    have := congrArg Prod.fst hg
    simp only at this
    rw [← this, processBus_running env fuel s s3 sigs3 tr3 hm]
    exact hr
  by_cases h3 : t = TIMER_TOKEN
  · subst h3
    rw [handle_timer_eq] at h
    injection h with h
    have := congrArg Prod.fst h
    simp only at this
    rw [← this]
    unfold processTimer
    rw [drainTimer_running]
    exact hr
  · rw [handle_io_eq env fuel s t ev h1 h2 h3] at h
    injection h with h
    have := congrArg Prod.fst h
    simp only at this
    rw [← this, processIo_running]
    exact hr

theorem handle_channel_ne (env : Env) (fuel : Nat) (s : Sys) (t : Nat) (ev : Ready)
    (s2 : Sys) (tr : List Action) (h : handle env fuel s t ev = some (s2, tr))
    (h1 : t ≠ CHANNEL_TOKEN) : s2.channel = s.channel := by
  by_cases h2 : t = BUS_TOKEN
  · subst h2
    rw [handle_bus_eq] at h
    obtain ⟨⟨s3, sigs3, tr3⟩, hm, hg⟩ := Option.map_eq_some'.mp h
    have := congrArg Prod.fst hg
    simp only at this
    rw [← this]
    exact processBus_channel env fuel s s3 sigs3 tr3 hm
  by_cases h3 : t = TIMER_TOKEN
  · subst h3
    rw [handle_timer_eq] at h
    injection h with h
    have := congrArg Prod.fst h
    simp only at this
    rw [← this]
    unfold processTimer
    rw [drainTimer_channel]
  · rw [handle_io_eq env fuel s t ev h1 h2 h3] at h
    injection h with h
    have := congrArg Prod.fst h
    simp only at this
    rw [← this, processIo_channel]

theorem processEvents_running_false (env : Env) (fuel : Nat) (evts : List (Nat × Ready))
    (s s2 : Sys) (tr : List Action) (h : processEvents env fuel evts s = some (s2, tr))
    (hr : s.running = false) : s2.running = false := by
  induction evts generalizing s s2 tr with
  | nil =>
    rw [processEvents] at h
    cases h
    exact hr
  | cons ev rest ih =>
    rw [processEvents] at h
    rcases hh : handle env fuel s ev.1 ev.2 with _ | ⟨s1, tr1⟩
    · rw [hh] at h; cases h
    · rw [hh] at h
      rcases hp : processEvents env fuel rest s1 with _ | ⟨s3, tr3⟩
      · simp only [hp] at h
        exact Option.noConfusion h
      · simp only [hp] at h
        cases h
        exact ih s1 _ _ hp (handle_running_false env fuel s ev.1 ev.2 s1 tr1 hh hr)

theorem processEvents_shutdown (env : Env) (fuel : Nat) (evts : List (Nat × Ready))
    (s s2 : Sys) (tr : List Action) (r : Ready)
    (h : processEvents env fuel evts s = some (s2, tr))
    (hevt : (CHANNEL_TOKEN, r) ∈ evts)
    (hmem : Request.session SessionRequest.shutdown ∈ s.channel) :
    s2.running = false := by
  induction evts generalizing s s2 tr with
  | nil => cases hevt
  | cons ev rest ih =>
    rw [processEvents] at h
    rcases hh : handle env fuel s ev.1 ev.2 with _ | ⟨s1, tr1⟩
    · rw [hh] at h; cases h
    · rw [hh] at h
      rcases hp : processEvents env fuel rest s1 with _ | ⟨s3, tr3⟩
      · simp only [hp] at h
        exact Option.noConfusion h
      · simp only [hp] at h
        cases h
        by_cases hc : ev.1 = CHANNEL_TOKEN
        · rw [hc, handle_channel_eq] at hh
          injection hh with hh
          have h1 : (processChannel env s).1 = s1 := by rw [hh]
          have hrf : s1.running = false := by
            rw [← h1]
            exact processChannel_shutdown env s hmem
          exact processEvents_running_false env fuel rest s1 _ _ hp hrf
        · rcases List.mem_cons.mp hevt with he | he
          · exact absurd (congrArg Prod.fst he.symm) hc
          · have hch : Request.session SessionRequest.shutdown ∈ s1.channel := by
              rw [handle_channel_ne env fuel s ev.1 ev.2 s1 tr1 hh hc]
              exact hmem
            exact ih s1 _ _ hp he hch

theorem elRun_eq (env : Env) (fuel : Nat) (script : List PollOutcome) (s : Sys) :
    elRun env fuel script s =
      if s.running then
        match script with
        | [] => RunResult.blocked
        | o :: rest =>
          match runOnce env o fuel s with
          | none => RunResult.blocked
          | some (Except.error e) => RunResult.failed e
          | some (Except.ok (s1, tr1)) =>
            match elRun env fuel rest s1 with
            | RunResult.finished s2 tr2 => RunResult.finished s2 (tr1 ++ tr2)
            | r => r
      else RunResult.finished s [] := by
  rw [elRun.eq_def]

theorem acceptLoop_cons (env : Env) (sid aid p : Nat) (ps : List Nat) (s : Sys) :
    acceptLoop env sid aid (p :: ps) s =
      ((acceptLoop env sid aid ps (applyOnSocket env sid
          (Action.onPipeAccepted sid aid (insertPipe sid p s).1) (insertPipe sid p s).2).1).1,
       (applyOnSocket env sid (Action.onPipeAccepted sid aid (insertPipe sid p s).1)
          (insertPipe sid p s).2).2 ++
       (acceptLoop env sid aid ps (applyOnSocket env sid
          (Action.onPipeAccepted sid aid (insertPipe sid p s).1) (insertPipe sid p s).2).1).2) :=
  rfl

theorem removeEp_lookup_none {α : Type} (eid : Nat) (l : List (Nat × α))
    (h : lookupEp eid l = none) : removeEp eid l = l := by
  induction l with
  | nil => rfl
  | cons kv rest ih =>
    obtain ⟨k, v⟩ := kv
    rw [lookupEp] at h
    rw [removeEp]
    by_cases hk : k = eid
    · rw [if_pos hk] at h; cases h
    · rw [if_neg hk] at h
      rw [if_neg hk, ih h]

theorem acceptLoop_absent (env : Env) (sid aid : Nat) (ps : List Nat) (s : Sys)
    (h : sid ∉ s.sockets) :
    (acceptLoop env sid aid ps s).2 = [] ∧
    (acceptLoop env sid aid ps s).1.pipes.length = s.pipes.length + ps.length := by
  induction ps generalizing s with
  | nil => exact ⟨rfl, rfl⟩
  | cons p ps ih =>
    have h1 : sid ∉ ((insertPipe sid p s).2).sockets := by simpa [insertPipe] using h
    have haos : applyOnSocket env sid (Action.onPipeAccepted sid aid (insertPipe sid p s).1)
        (insertPipe sid p s).2 = ((insertPipe sid p s).2, []) := by
      simp [applyOnSocket, h1]
    obtain ⟨iht, ihl⟩ := ih (insertPipe sid p s).2 h1
    rw [acceptLoop_cons, haos]
    constructor
    · simpa using iht
    · rw [List.length_cons]
      have hlen : ((insertPipe sid p s).2).pipes.length = s.pipes.length + 1 := by
        simp [insertPipe]
      rw [ihl, hlen]
      omega

theorem acceptLoop_present (env : Env) (sid aid : Nat) (ps : List Nat) (s : Sys)
    (h : sid ∈ s.sockets) :
    (acceptLoop env sid aid ps s).2
      = (List.range ps.length).map (fun i => Action.onPipeAccepted sid aid (s.nextId + i)) ∧
    (acceptLoop env sid aid ps s).1.pipes.length = s.pipes.length + ps.length ∧
    (acceptLoop env sid aid ps s).1.nextId = s.nextId + ps.length := by
  induction ps generalizing s with
  | nil => exact ⟨rfl, rfl, rfl⟩
  | cons p ps ih =>
    have hsock : sid ∈ (applyOnSocket env sid
        (Action.onPipeAccepted sid aid (insertPipe sid p s).1)
        (insertPipe sid p s).2).1.sockets := by
      rw [aos_sockets]; simpa [insertPipe] using h
    obtain ⟨iht, ihl, ihn⟩ := ih _ hsock
    have h1 : sid ∈ ((insertPipe sid p s).2).sockets := by simpa [insertPipe] using h
    have hq2 : (applyOnSocket env sid (Action.onPipeAccepted sid aid (insertPipe sid p s).1)
        (insertPipe sid p s).2).2 = [Action.onPipeAccepted sid aid s.nextId] := by
      simp [applyOnSocket, emitCtx, insertPipe, h]
    have hqn : (applyOnSocket env sid (Action.onPipeAccepted sid aid (insertPipe sid p s).1)
        (insertPipe sid p s).2).1.nextId = s.nextId + 1 := by
      rw [aos_nextId]; simp [insertPipe]
    have hql : (applyOnSocket env sid (Action.onPipeAccepted sid aid (insertPipe sid p s).1)
        (insertPipe sid p s).2).1.pipes.length = s.pipes.length + 1 := by
      rw [aos_pipes]; simp [insertPipe]
    rw [acceptLoop_cons]
    refine ⟨?_, ?_, ?_⟩
    · rw [hq2]
      rw [iht, hqn]
      have hres : (List.range (p :: ps).length).map
            (fun i => Action.onPipeAccepted sid aid (s.nextId + i))
          = Action.onPipeAccepted sid aid s.nextId
            :: (List.range ps.length).map
                (fun i => Action.onPipeAccepted sid aid (s.nextId + 1 + i)) := by
        rw [List.length_cons, List.range_succ_eq_map, List.map_cons, List.map_map]
        rw [Nat.add_zero]
        congr 1
        apply List.map_congr_left
        intro i _
        simp only [Function.comp]
        congr 1
        omega
      rw [hres]
      simp
    · rw [ihl, hql, List.length_cons]
      omega
    · rw [ihn, hqn, List.length_cons]
      omega

/-! Claim theorems. -/

/-- C1 (amended): `Dispatcher::handle` routes the reserved channel, bus and
timer tokens to the corresponding drains; any other token is treated as an
`EndpointId` by `process_io`, which first prints a debug line to stdout, then
invokes `ready(loop, bus, readiness)` on the pipe with that id if present,
otherwise on the acceptor with that id if present; when neither owns the id
the event has no effect beyond the debug print. -/
theorem claim1_token_routing (env : Env) (fuel : Nat) (s : Sys) (tok : Nat) (ev : Ready) :
    handle env fuel s CHANNEL_TOKEN ev = some (processChannel env s) ∧
    handle env fuel s BUS_TOKEN ev = (processBus env fuel s).map (fun q => (q.1, q.2.2)) ∧
    handle env fuel s TIMER_TOKEN ev = some (processTimer env s) ∧
    (tok ≠ CHANNEL_TOKEN → tok ≠ BUS_TOKEN → tok ≠ TIMER_TOKEN →
      ((∀ p, lookupEp tok s.pipes = some p →
          handle env fuel s tok ev =
            some ({ s with bus := s.bus ++ env (Action.pipeReady tok ev) },
                  [Action.printStdout tok ev, Action.pipeReady tok ev])) ∧
       (lookupEp tok s.pipes = none → ∀ a, lookupEp tok s.acceptors = some a →
          handle env fuel s tok ev =
            some ({ s with bus := s.bus ++ env (Action.acceptorReady tok ev) },
                  [Action.printStdout tok ev, Action.acceptorReady tok ev])) ∧
       (lookupEp tok s.pipes = none → lookupEp tok s.acceptors = none →
          handle env fuel s tok ev = some (s, [Action.printStdout tok ev])))) := by
  refine ⟨handle_channel_eq env fuel s ev, handle_bus_eq env fuel s ev,
    handle_timer_eq env fuel s ev, fun h1 h2 h3 => ⟨?_, ?_, ?_⟩⟩
  · intro p hp
    rw [handle_io_eq env fuel s tok ev h1 h2 h3]
    simp [processIo, hp, emitCtx]
  · intro hn a ha
    rw [handle_io_eq env fuel s tok ev h1 h2 h3]
    simp [processIo, hn, ha, emitCtx]
  · intro hn hna
    rw [handle_io_eq env fuel s tok ev h1 h2 h3]
    simp [processIo, hn, hna]

/-- C1 counterexample: the claim as stated says an event whose token owns no
pipe and no acceptor is ignored with no other effect, but `process_io`
unconditionally prints to stdout, so the action trace is not empty. -/
theorem claim1_token_routing_cex :
    handle env0 0 sEmpty 5 r0 ≠ some (sEmpty, []) ∧
    handle env0 0 sEmpty 5 r0 = some (sEmpty, [Action.printStdout 5 r0]) := by
  constructor
  · decide
  · rfl

/-- C1 witness: a concrete pipe-owned token takes the pipe branch. -/
theorem claim1_token_routing_witness :
    handle env0 0 s1w 4 r0 = some (s1w, [Action.printStdout 4 r0, Action.pipeReady 4 r0]) := by
  have h := ((claim1_token_routing env0 0 s1w 4 r0).2.2.2
    (by decide) (by decide) (by decide)).1 (1, 9) (by decide)
  rw [h]
  rfl

/-- C2: `Dispatcher::process_pipe_evt` translates each pipe event to exactly
the matching socket callback: `Opened` to `on_pipe_opened`, `CanSend` to
`on_send_ready`, `Sent` to `on_send_ack`, `CanRecv` to `on_recv_ready`,
`Received(msg)` to `on_recv_ack`, `Error(err)` to `on_pipe_error`; `Closed`
removes the pipe from the endpoint collection and invokes no callback;
`Accepted` is ignored with no effect. -/
theorem claim2_pipe_evt_translation (env : Env) (sid eid msg err : Nat) (ps : List Nat)
    (s : Sys) (h : sid ∈ s.sockets) :
    (processPipeEvt env sid eid Event.opened s).2 = [Action.onPipeOpened sid eid] ∧
    (processPipeEvt env sid eid Event.canSend s).2 = [Action.onSendReady sid eid] ∧
    (processPipeEvt env sid eid Event.sent s).2 = [Action.onSendAck sid eid] ∧
    (processPipeEvt env sid eid Event.canRecv s).2 = [Action.onRecvReady sid eid] ∧
    (processPipeEvt env sid eid (Event.received msg) s).2 = [Action.onRecvAck sid eid msg] ∧
    (processPipeEvt env sid eid (Event.error err) s).2 = [Action.onPipeError sid eid err] ∧
    processPipeEvt env sid eid Event.closed s = ({ s with pipes := removeEp eid s.pipes }, []) ∧
    processPipeEvt env sid eid (Event.accepted ps) s = (s, []) := by
  refine ⟨?_, ?_, ?_, ?_, ?_, ?_, rfl, rfl⟩ <;> simp [processPipeEvt, applyOnSocket, emitCtx, h]

/-- C2 witness: a live socket receives `on_pipe_opened`, and `Accepted` on a
pipe is a no-op. -/
theorem claim2_pipe_evt_translation_witness :
    (processPipeEvt env0 1 5 Event.opened s2w).2 = [Action.onPipeOpened 1 5] ∧
    processPipeEvt env0 1 5 (Event.accepted [7]) s2w = (s2w, []) :=
  ⟨(claim2_pipe_evt_translation env0 1 5 0 0 [7] s2w (by decide)).1,
   (claim2_pipe_evt_translation env0 1 5 0 0 [7] s2w (by decide)).2.2.2.2.2.2.2⟩

/-- C3: when `handle` returns for the reserved channel token the request
queue is empty, for the reserved bus token the signal bus is empty, and for
the reserved timer token no expired entry remains; moreover the bus drain
observes the initially queued signals first, in FIFO order, with signals
appended by handlers processed after them before the drain returns. -/
theorem claim3_drain_completeness (env : Env) (fuel : Nat) (s : Sys) (r : Ready) :
    (∀ s2 tr, handle env fuel s CHANNEL_TOKEN r = some (s2, tr) → s2.channel = []) ∧
    (∀ s2 tr, handle env fuel s BUS_TOKEN r = some (s2, tr) → s2.bus = []) ∧
    (∀ s2 tr, handle env fuel s TIMER_TOKEN r = some (s2, tr) → s2.timer = []) ∧
    (∀ s2 sigs tr, processBus env fuel s = some (s2, sigs, tr) →
      s2.bus = [] ∧ ∃ extra, sigs = s.bus ++ extra) := by
  refine ⟨?_, ?_, ?_, ?_⟩
  · intro s2 tr h
    rw [handle_channel_eq] at h
    injection h with h
    have h1 := congrArg Prod.fst h
    simp only at h1
    rw [← h1]
    exact processChannel_channel env s
  · intro s2 tr h
    rw [handle_bus_eq] at h
    obtain ⟨⟨s3, sigs3, tr3⟩, hm, hg⟩ := Option.map_eq_some'.mp h
    have h1 := congrArg Prod.fst hg
    simp only at h1
    rw [← h1]
    exact processBus_bus env fuel s s3 sigs3 tr3 hm
  · intro s2 tr h
    rw [handle_timer_eq] at h
    injection h with h
    have h1 := congrArg Prod.fst h
    simp only at h1
    rw [← h1]
    exact processTimer_timer env s
  · intro s2 sigs tr h
    exact ⟨processBus_bus env fuel s _ _ _ h, processBus_sigs env fuel s _ _ _ h⟩

/-- C3 witness: concrete drains of a one-request channel, a one-signal bus
and a one-entry timer queue leave the respective queue empty. -/
theorem claim3_drain_completeness_witness :
    handle env0 1 s3w CHANNEL_TOKEN r0 = some (s3c, []) ∧ s3c.channel = [] ∧
    handle env0 1 s3w BUS_TOKEN r0 = some (s3b, []) ∧ s3b.bus = [] ∧
    handle env0 1 s3w TIMER_TOKEN r0 = some (s3t, []) ∧ s3t.timer = [] :=
  ⟨by decide, (claim3_drain_completeness env0 1 s3w r0).1 s3c [] (by decide),
   by decide, (claim3_drain_completeness env0 1 s3w r0).2.1 s3b [] (by decide),
   by decide, (claim3_drain_completeness env0 1 s3w r0).2.2.1 s3t [] (by decide)⟩

/-- C4 (amended): a signal or request whose target is absent from its
collection at dispatch time — the pipe for `PipeCmd` and for
`PipeEvt::Closed`, the acceptor for `AcceptorCmd`, the socket for the other
`PipeEvt` kinds, for `AcceptorEvt::Error`, for `SocketEvt::Closed` and for
socket/endpoint/tick routing, the linking device for `SocketEvt::CanRecv`,
the device for `Device` requests — is processed as a no-op: no callback, no
error, state unchanged; with one exception: `AcceptorEvt::Accepted(pipes)`
addressed to an absent socket invokes no callback but still inserts every
carried pipe into the endpoint collection. -/
theorem claim4_absent_target (env : Env) (s : Sys) (sid eid aid did cmd er : Nat)
    (ps : List Nat) (rq : SocketRequest) (sch : Schedulable) (remote : Bool) :
    (lookupEp eid s.pipes = none → processPipeCmd env eid cmd s = (s, [])) ∧
    (lookupEp eid s.acceptors = none → processAcceptorCmd env eid cmd s = (s, [])) ∧
    (sid ∉ s.sockets → ∀ evt, evt ≠ Event.closed → processPipeEvt env sid eid evt s = (s, [])) ∧
    (lookupEp eid s.pipes = none → processPipeEvt env sid eid Event.closed s = (s, [])) ∧
    (sid ∉ s.sockets → processAcceptorEvt env sid aid (Event.error er) s = (s, [])) ∧
    (sid ∉ s.sockets →
      (processAcceptorEvt env sid aid (Event.accepted ps) s).2 = [] ∧
      (processAcceptorEvt env sid aid (Event.accepted ps) s).1.pipes.length
        = s.pipes.length + ps.length) ∧
    (findDeviceLink sid s.devices = none → processSocketEvt sid Event.canRecv s = (s, [])) ∧
    (sid ∉ s.sockets → processSocketEvt sid Event.closed s = (s, [])) ∧
    (sid ∉ s.sockets → processSocketRequest env sid rq s = (s, [])) ∧
    (sid ∉ s.sockets →
      processEndpointRequest env sid eid (EndpointRequest.close remote) s = (s, [])) ∧
    (lookupEp did s.devices = none → processDeviceRequest did DeviceRequest.check s = (s, [])) ∧
    (sid ∉ s.sockets → processSocketTask env sid sch s = (s, [])) := by
  refine ⟨?_, ?_, ?_, ?_, ?_, ?_, ?_, ?_, ?_, ?_, ?_, ?_⟩
  · intro h
    simp [processPipeCmd, h]
  · intro h
    simp [processAcceptorCmd, h]
  · intro h evt hne
    cases evt <;> first
      | exact absurd rfl hne
      | simp [processPipeEvt, applyOnSocket, h]
  · intro h
    show ({ s with pipes := removeEp eid s.pipes }, ([] : List Action)) = (s, [])
    rw [removeEp_lookup_none eid s.pipes h]
  · intro h
    simp [processAcceptorEvt, applyOnSocket, h]
  · intro h
    exact acceptLoop_absent env sid aid ps s h
  · intro h
    simp [processSocketEvt, applyOnDeviceLink, h]
  · intro h
    show ({ s with sockets := s.sockets.erase sid }, ([] : List Action)) = (s, [])
    rw [List.erase_of_not_mem h]
  · intro h
    cases rq <;> simp [processSocketRequest, applyOnSocket, h]
  · intro h
    simp [processEndpointRequest, applyOnSocket, h]
  · intro h
    simp [processDeviceRequest, applyOnDevice, h]
  · intro h
    cases sch <;> simp [processSocketTask, applyOnSocket, h]

/-- C4 counterexample: an `AcceptorEvt::Accepted` signal whose socket has
been removed is not a no-op — it still mutates the endpoint collection. -/
theorem claim4_absent_target_cex :
    (processSignal env0 (Signal.acceptorEvt 3 4 (Event.accepted [9])) sEmpty).1 ≠ sEmpty ∧
    (processSignal env0 (Signal.acceptorEvt 3 4 (Event.accepted [9])) sEmpty).2 = [] := by
  constructor
  · decide
  · rfl

/-- C4 witness: a `PipeCmd` to an unregistered pipe and a `PipeEvt` to an
absent socket are both complete no-ops. -/
theorem claim4_absent_target_witness :
    processPipeCmd env0 1 2 sEmpty = (sEmpty, []) ∧
    processPipeEvt env0 1 2 (Event.received 5) sEmpty = (sEmpty, []) :=
  ⟨(claim4_absent_target env0 sEmpty 1 1 0 0 2 0 [] SocketRequest.recv
      Schedulable.sendTimeout false).1 (by decide),
   (claim4_absent_target env0 sEmpty 1 1 0 0 2 0 [] SocketRequest.recv
      Schedulable.sendTimeout false).2.2.1 (by decide) (Event.received 5) (by decide)⟩

/-- C5: `EventLoop::run_once` absorbs an `Interrupted` poll error (no handler
invocation, `Ok` returned), propagates any other poll error (which also makes
the enclosing `run` loop terminate with it), and on a successful poll invokes
`handler.handle(self, token, readiness)` once per returned event. -/
theorem claim5_run_once (env : Env) (fuel : Nat) (s : Sys) (e : PollErr)
    (evts : List (Nat × Ready)) (t : Nat) (r : Ready) (rest : List (Nat × Ready))
    (script : List PollOutcome) :
    (e.isInterrupted = true → runOnce env (PollOutcome.err e) fuel s = some (Except.ok (s, []))) ∧
    (e.isInterrupted = false → runOnce env (PollOutcome.err e) fuel s = some (Except.error e)) ∧
    runOnce env (PollOutcome.ok evts) fuel s = (processEvents env fuel evts s).map Except.ok ∧
    processEvents env fuel [] s = some (s, []) ∧
    processEvents env fuel ((t, r) :: rest) s =
      (handle env fuel s t r).bind
        (fun p => (processEvents env fuel rest p.1).map (fun q => (q.1, p.2 ++ q.2))) ∧
    (s.running = true → e.isInterrupted = false →
      elRun env fuel (PollOutcome.err e :: script) s = RunResult.failed e) := by
  refine ⟨fun h => ?_, fun h => ?_, rfl, rfl, ?_, fun hr hi => ?_⟩
  · simp [runOnce, h, processEvents]
  · simp [runOnce, h]
  · rcases hh : handle env fuel s t r with _ | p
    · simp [processEvents, hh]
    · rcases hp : processEvents env fuel rest p.1 with _ | q
      · simp [processEvents, hh, hp]
      · simp [processEvents, hh, hp]
  · rw [elRun_eq]
    simp [hr, runOnce, hi]

/-- C5 witness: an interrupted poll is absorbed, a genuine error propagates
and fails the loop. -/
theorem claim5_run_once_witness :
    runOnce env0 (PollOutcome.err peI) 0 sEmpty = some (Except.ok (sEmpty, [])) ∧
    runOnce env0 (PollOutcome.err peO) 0 sEmpty = some (Except.error peO) ∧
    elRun env0 0 [PollOutcome.err peO] { sEmpty with running := true } = RunResult.failed peO :=
  ⟨(claim5_run_once env0 0 sEmpty peI [] 0 r0 [] []).1 rfl,
   (claim5_run_once env0 0 sEmpty peO [] 0 r0 [] []).2.1 rfl,
   (claim5_run_once env0 0 { sEmpty with running := true } peO [] 0 r0 [] []).2.2.2.2.2 rfl rfl⟩

/-- C6: `EventLoop::shutdown` clears the running flag; once the flag is
cleared during an iteration, `run` completes that iteration and returns
without starting another poll; in particular when a `Session::Shutdown`
request is in the channel and the iteration delivers the channel token,
`run` finishes with that iteration's result regardless of any further
scripted poll outcomes. -/
theorem claim6_shutdown_liveness (env : Env) (fuel : Nat) (s s1 : Sys) (tr1 : List Action)
    (evts : List (Nat × Ready)) (script : List PollOutcome) (r : Ready)
    (hmem : Request.session SessionRequest.shutdown ∈ s.channel)
    (hevt : (CHANNEL_TOKEN, r) ∈ evts)
    (hrun : runOnce env (PollOutcome.ok evts) fuel { s with running := true }
      = some (Except.ok (s1, tr1))) :
    (elShutdown s).running = false ∧
    (∀ w : Sys, w.running = false → elRun env fuel script w = RunResult.finished w []) ∧
    elRunFromStart env fuel (PollOutcome.ok evts :: script) s = RunResult.finished s1 tr1 := by
  have hstopAll : ∀ (sc : List PollOutcome) (w : Sys), w.running = false →
      elRun env fuel sc w = RunResult.finished w [] := by
    intro sc w hw
    rw [elRun_eq, hw]
    simp
  refine ⟨rfl, hstopAll script, ?_⟩
  have hpe : processEvents env fuel evts { s with running := true } = some (s1, tr1) := by
    simp only [runOnce] at hrun
    obtain ⟨q, hq, hg⟩ := Option.map_eq_some'.mp hrun
    injection hg with hg
    rw [hg] at hq
    exact hq
  have hrf : s1.running = false :=
    processEvents_shutdown env fuel evts _ s1 tr1 r hpe hevt hmem
  show elRun env fuel (PollOutcome.ok evts :: script) { s with running := true }
    = RunResult.finished s1 tr1
  rw [elRun_eq]
  simp only [hrun, hstopAll script s1 hrf]
  simp

/-- C6 witness: a channel holding `Shutdown`, delivered in one poll
iteration, makes `run` return after that iteration. -/
theorem claim6_shutdown_liveness_witness :
    elRunFromStart env0 1 [PollOutcome.ok [(CHANNEL_TOKEN, r0)]] s6
      = RunResult.finished sEmpty [] :=
  (claim6_shutdown_liveness env0 1 s6 sEmpty [] [(CHANNEL_TOKEN, r0)] [] r0
    (by decide) (by decide) (by rfl)).2.2

/-- C7: `Dispatcher::process_acceptor_evt` on `Accepted(pipes)` inserts each
pipe into the endpoint collection under a fresh monotonic `EndpointId` and
fires `on_pipe_accepted(aid, pipe_id)` on the socket for each, so the
collection grows by the length of the list and the new ids are pairwise
distinct and disjoint from all previously registered ids; `Error(e)` fires
`on_acceptor_error(aid, e)`; every other event variant is ignored. -/
theorem claim7_accepted_insertions (env : Env) (sid aid er m : Nat) (ps : List Nat) (s : Sys)
    (hsock : sid ∈ s.sockets)
    (hfresh : ∀ e ∈ s.pipes, e.1 < s.nextId)
    (hfresha : ∀ e ∈ s.acceptors, e.1 < s.nextId) :
    (processAcceptorEvt env sid aid (Event.accepted ps) s).2
      = (List.range ps.length).map (fun i => Action.onPipeAccepted sid aid (s.nextId + i)) ∧
    (processAcceptorEvt env sid aid (Event.accepted ps) s).1.pipes.length
      = s.pipes.length + ps.length ∧
    ((List.range ps.length).map (fun i => s.nextId + i)).Nodup ∧
    (∀ i, i < ps.length → ∀ e ∈ s.pipes, e.1 ≠ s.nextId + i) ∧
    (∀ i, i < ps.length → ∀ e ∈ s.acceptors, e.1 ≠ s.nextId + i) ∧
    (processAcceptorEvt env sid aid (Event.error er) s).2
      = [Action.onAcceptorError sid aid er] ∧
    processAcceptorEvt env sid aid Event.opened s = (s, []) ∧
    processAcceptorEvt env sid aid Event.canSend s = (s, []) ∧
    processAcceptorEvt env sid aid Event.sent s = (s, []) ∧
    processAcceptorEvt env sid aid Event.canRecv s = (s, []) ∧
    processAcceptorEvt env sid aid (Event.received m) s = (s, []) ∧
    processAcceptorEvt env sid aid Event.closed s = (s, []) := by
  obtain ⟨ht, hl, hn⟩ := acceptLoop_present env sid aid ps s hsock
  refine ⟨ht, hl, ?_, ?_, ?_, ?_, rfl, rfl, rfl, rfl, rfl, rfl⟩
  · refine List.Nodup.map ?_ (List.nodup_range ps.length)
    intro a b hab
    simp only at hab
    omega
  · intro i hi e he hcontra
    have := hfresh e he
    omega
  · intro i hi e he hcontra
    have := hfresha e he
    omega
  · simp [processAcceptorEvt, applyOnSocket, emitCtx, hsock]

/-- C7 witness: two accepted pipes get fresh ids 3 and 4 and the collection
grows from one pipe to three. -/
theorem claim7_accepted_insertions_witness :
    (processAcceptorEvt env0 1 2 (Event.accepted [8, 9]) s7).2
      = [Action.onPipeAccepted 1 2 3, Action.onPipeAccepted 1 2 4] ∧
    (processAcceptorEvt env0 1 2 (Event.accepted [8, 9]) s7).1.pipes.length = 3 := by
  have h := claim7_accepted_insertions env0 1 2 0 0 [8, 9] s7 (by decide) (by decide) (by decide)
  exact ⟨by rw [h.1]; rfl, by rw [h.2.1]; rfl⟩

/-- C8 (code-bug evidence): dispatching any endpoint token runs `process_io`,
whose first statement is `println!("process_io {:?} {:?}", token, events)` —
a stdout write, contradicting the spec's rule that the reactor only surfaces
information through the reply channel. -/
theorem claim8_stdout_write :
    handle env0 0 sEmpty 7 r0 = some (sEmpty, [Action.printStdout 7 r0]) := by
  rfl

/-- C9: `Scheduled` wraps `usize` losslessly — `From<usize>` followed by
`Into<usize>` is the identity, and so is the converse composition. -/
theorem claim9_scheduled_roundtrip (n : Nat) (x : Scheduled) :
    Scheduled.intoUsize (Scheduled.fromUsize n) = n ∧
    Scheduled.fromUsize (Scheduled.intoUsize x) = x :=
  ⟨rfl, rfl⟩

/-- C10: `Dispatcher::process_signal` drops the `SocketId` of `PipeCmd` and
`AcceptorCmd` signals, so processing is identical for any two such signals
that agree on the `EndpointId` and command. -/
theorem claim10_socket_id_ignored (env : Env) (s : Sys) (eid cmd sid1 sid2 : Nat) :
    processSignal env (Signal.pipeCmd sid1 eid cmd) s
      = processSignal env (Signal.pipeCmd sid2 eid cmd) s ∧
    processSignal env (Signal.acceptorCmd sid1 eid cmd) s
      = processSignal env (Signal.acceptorCmd sid2 eid cmd) s :=
  ⟨rfl, rfl⟩

end Reactor
